import Mathlib

set_option maxHeartbeats 1000000
set_option maxRecDepth 4000

/-!
Verification development for the Chapter 8 contingency/stress-testing harness
(`Chapter 8/Chapter_8_CS_2.py` of The PyPSA Handbook repository).

The script builds a 5-bus base network, solves a base OPF, exports the network
to `base_network.nc`, and then, for each candidate line outage, reloads the
network from disk, zeroes the line's capacity, tops up load-shedding
("Unserved") generators, re-solves, and collects per-scenario dispatch, cost
and unserved energy.  Feasible dispatches are aggregated by
`pd.concat(...).groupby(level=0).max()`, and summary statistics are printed
with `np.mean` / `np.max`.

Numeric values are embedded as rationals (the structural claims verified here
do not depend on floating-point rounding), pandas DataFrames as explicit
row/column tables, and the external pypsa/solver boundary as an oracle
returning the solver outcome for a given network.
-/

/-! ### DataFrames

A pandas DataFrame holding per-snapshot, per-generator values is embedded as a
column-name list plus rows of (snapshot label, values aligned with the column
list). -/

structure Frame where
  cols : List String
  rows : List (String × List ℚ)
deriving DecidableEq

/-- Position of a column label in a column list (pandas column lookup). -/
def colIdx : List String → String → Option ℕ
  | [], _ => none
  | c' :: cs, c => if c' = c then some 0 else (colIdx cs c).map (· + 1)

/-- Maximum of a list of rationals; pandas `max` over a non-empty group
(the `[]` case is never hit on grouped rows, since every group is induced by
an occurring key). -/
def qmax : List ℚ → ℚ
  | [] => 0
  | x :: xs => xs.foldl max x

/-- The values in column position `i` of the rows of `f` whose index label is
`k`. -/
def colVals (f : Frame) (k : String) (i : ℕ) : List ℚ :=
  (f.rows.filter (fun r => r.1 == k)).map (fun r => r.2.getD i 0)

/-- `pd.concat` of frames sharing one column set (as in the script, where all
scenario dispatch frames come from the same network): rows are stacked. -/
def concatFrames (fs : List Frame) : Frame :=
  { cols := (fs.headD ⟨[], []⟩).cols,
    rows := (fs.map (fun f => f.rows)).flatten }

/-- `groupby(level=0).max()`: one row per distinct index label, each entry the
maximum over that label's rows.  pandas emits groups in sorted-key order; the
script's frames all carry the single snapshot index created by
`set_snapshots(periods=1)`, for which first-occurrence order (used here)
coincides with sorted order. -/
def groupbyMax (f : Frame) : Frame :=
  { cols := f.cols,
    rows := ((f.rows.map (fun r => r.1)).dedup).map (fun k =>
      (k, (List.range f.cols.length).map (fun i => qmax (colVals f k i)))) }

/-- Scalar lookup `frame.loc[k, c]` (0 when the label or column is absent;
the theorems below only use it at present labels/columns). -/
def cell (f : Frame) (k c : String) : ℚ :=
  ((f.rows.find? (fun r => r.1 == k)).bind
    (fun r => (colIdx f.cols c).map (fun i => r.2.getD i 0))).getD 0

/-- Conservative dispatch, from the script:
`pd.concat(scopf_dispatches).groupby(level=0).max() if scopf_dispatches else
ofp_dispatch.copy()` (Python truthiness of the list). -/
def scopf_dispatch (scopf_dispatches : List Frame) (ofp_dispatch : Frame) : Frame :=
  if scopf_dispatches.isEmpty then ofp_dispatch
  else groupbyMax (concatFrames scopf_dispatches)

/-! ### Network data model

The component tables the script populates: buses, generators, loads, lines.
Per-component attributes are the ones the script sets. -/

structure Generator where
  name : String
  bus : String
  p_nom : ℚ
  marginal_cost : ℚ
  carrier : String
deriving DecidableEq

structure LineRec where
  name : String
  bus0 : String
  bus1 : String
  x : ℚ
  r : ℚ
  s_nom : ℚ
deriving DecidableEq

structure LoadRec where
  name : String
  bus : String
  p_set : ℚ
deriving DecidableEq

structure Network where
  buses : List String
  generators : List Generator
  loads : List LoadRec
  lines : List LineRec
deriving DecidableEq

/-- The script's base network `n`: 5 buses, generators G0-G3, four loads, five
lines (x=0.1, r=0.01, s_nom=100), and a high-cost "Unserved_i" generator at
each bus (p_nom=1e4, marginal_cost=10000). -/
def nBase : Network where
  buses := ["Bus 0", "Bus 1", "Bus 2", "Bus 3", "Bus 4"]
  generators :=
    [ ⟨"G0", "Bus 0", 100, 0, "wind"⟩,
      ⟨"G1", "Bus 1", 80, 50, "gas"⟩,
      ⟨"G2", "Bus 2", 40, 40, "chp"⟩,
      ⟨"G3", "Bus 3", 100, 200, "diesel"⟩,
      ⟨"Unserved_0", "Bus 0", 10000, 10000, "unserved"⟩,
      ⟨"Unserved_1", "Bus 1", 10000, 10000, "unserved"⟩,
      ⟨"Unserved_2", "Bus 2", 10000, 10000, "unserved"⟩,
      ⟨"Unserved_3", "Bus 3", 10000, 10000, "unserved"⟩,
      ⟨"Unserved_4", "Bus 4", 10000, 10000, "unserved"⟩ ]
  loads :=
    [ ⟨"Load1", "Bus 1", 50⟩, ⟨"Load2", "Bus 2", 30⟩,
      ⟨"Load3", "Bus 3", 40⟩, ⟨"Load4", "Bus 4", 80⟩ ]
  lines :=
    [ ⟨"Line_0_1", "Bus 0", "Bus 1", 1/10, 1/100, 100⟩,
      ⟨"Line_1_2", "Bus 1", "Bus 2", 1/10, 1/100, 100⟩,
      ⟨"Line_2_3", "Bus 2", "Bus 3", 1/10, 1/100, 100⟩,
      ⟨"Line_3_0", "Bus 3", "Bus 0", 1/10, 1/100, 100⟩,
      ⟨"Line_1_4", "Bus 1", "Bus 4", 1/10, 1/100, 100⟩ ]

/-- The script's candidate outages, in source order. -/
def contingency_lines : List String :=
  ["Line_0_1", "Line_1_4", "Line_1_2", "Line_2_3", "Line_3_0"]

/-- `m.lines.at[line, "s_nom"] = v`.  pandas `.at` assignment updates the cell
in place when the row label exists and otherwise *enlarges* the frame with a
new row whose unassigned cells are NaN (modelled by `""`/`0` defaults); it
does not raise on a missing row label. -/
def setLineSnom (m : Network) (line : String) (v : ℚ) : Network :=
  if (m.lines.map (fun l => l.name)).contains line then
    { m with lines := m.lines.map (fun l =>
        if l.name == line then { l with s_nom := v } else l) }
  else
    { m with lines := m.lines ++ [⟨line, "", "", 0, 0, v⟩] }

/-- The per-scenario guard loop:
`for bus in m.buses.index: if f"Unserved_{bus}" not in m.generators.index:
m.add("Generator", f"Unserved_{bus}", bus=bus, p_nom=1e4,
marginal_cost=10000, carrier="unserved")`. -/
def addUnservedScan (m : Network) : Network :=
  m.buses.foldl (fun mm bus =>
    if (mm.generators.map (fun g => g.name)).contains ("Unserved_" ++ bus) then mm
    else { mm with generators := mm.generators ++
      [⟨"Unserved_" ++ bus, bus, 10000, 10000, "unserved"⟩] }) m

/-- One scenario build: reload of the exported base (a value here), zero the
candidate line's capacity, run the unserved-generator guard loop. -/
def scenarioNet (d : Network) (line : String) : Network :=
  addUnservedScan (setLineSnom d line 0)

/-! ### The contingency loop

`m.optimize(solver_name="glpk")` crosses into pypsa/GLPK; its outcome for a
given network is an oracle value.  A run that returns leaves `m.objective`
either set (`some`) or `None`; a solver-invocation failure raises a Python
exception (the script installs no `try`/`except`, so a raise propagates). -/

inductive SolveOutcome where
  /-- `optimize` returned; `objective` is the optimum, or `none` when the LP
  was not solved (the script's `m.objective is None` test); `p` is
  `m.generators_t.p` after the call. -/
  | solved (objective : Option ℚ) (p : Frame)
  /-- `optimize` raised a Python exception with this message. -/
  | raised (msg : String)
deriving DecidableEq

/-- True exactly on a raised exception. -/
def isRaisedB : SolveOutcome → Bool
  | .raised _ => true
  | _ => false

/-- True exactly on a returned solve whose objective is `None` (the outcome
the script classifies as infeasible). -/
def isNoObjB : SolveOutcome → Bool
  | .solved none _ => true
  | _ => false

/-- The collector lists of the loop, plus the lines printed so far. -/
structure LoopAcc where
  scopf_dispatches : List Frame
  scopf_costs : List ℚ
  scopf_unserved : List ℚ
  log : List String
deriving DecidableEq

def initAcc : LoopAcc := ⟨[], [], [], []⟩

/-- Mutable program state threaded through the run: the base network object
`n` and the contents of `base_network.nc` (`none` before the export). -/
structure ProgState where
  n : Network
  disk : Option Network
deriving DecidableEq

/-- The message printed for an infeasible outage. -/
def infeasMsg (line : String) : String := "Infeasible for outage: " ++ line

/-- `pat` occurs as a contiguous run inside `l` (substring semantics of
pandas `filter(like=...)`, on character lists). -/
def hasSeq : List Char → List Char → Bool
  | pat, [] => pat.isEmpty
  | pat, c :: cs => pat.isPrefixOf (c :: cs) || hasSeq pat cs

/-- `unserved_sum = m.generators_t.p.filter(like="Unserved").sum(axis=1).values[0]`:
columns whose name contains "Unserved" are summed per row and the *first*
row's value is taken (`values[0]`; an empty frame would raise an IndexError —
never the case in the script, whose frames carry the single snapshot). -/
def unservedSum (f : Frame) : ℚ :=
  match f.rows with
  | [] => 0
  | r :: _ =>
      (((f.cols.zip r.2).filter
        (fun p => hasSeq "Unserved".data p.1.data)).map (fun p => p.2)).sum

/-- One iteration of `for line in contingency_lines: ...`. -/
def enumStep (solve : Network → SolveOutcome) (st : ProgState) (acc : LoopAcc)
    (line : String) : Except String (LoopAcc × ProgState) :=
  match st.disk with
  | none => .error "FileNotFoundError: base_network.nc"
  | some d =>
      match solve (scenarioNet d line) with
      | .raised msg => .error msg
      | .solved none _ =>
          .ok ({ acc with log := acc.log ++ [infeasMsg line] }, st)
      | .solved (some obj) p =>
          .ok ({ acc with
                  scopf_dispatches := acc.scopf_dispatches ++ [p],
                  scopf_costs := acc.scopf_costs ++ [obj],
                  scopf_unserved := acc.scopf_unserved ++ [unservedSum p] }, st)

/-- The whole contingency loop; an uncaught exception (`.error`) aborts it. -/
def enumRun (solve : Network → SolveOutcome) :
    ProgState → List String → LoopAcc → Except String (LoopAcc × ProgState)
  | st, [], acc => .ok (acc, st)
  | st, line :: ls, acc =>
      match enumStep solve st acc line with
      | .error e => .error e
      | .ok (acc', st') => enumRun solve st' ls acc'

/-- True exactly on a completed (non-aborted) run. -/
def isOkE : Except String (LoopAcc × ProgState) → Bool
  | .ok _ => true
  | .error _ => false

/-! Closed forms for what the loop collects, per candidate outcome. -/

def stepCost : SolveOutcome → Option ℚ
  | .solved (some v) _ => some v
  | _ => none

def stepDisp : SolveOutcome → Option Frame
  | .solved (some _) p => some p
  | _ => none

def stepLog (line : String) : SolveOutcome → List String
  | .solved none _ => [infeasMsg line]
  | _ => []

def costsSpec (solve : Network → SolveOutcome) (d : Network) (ls : List String) : List ℚ :=
  ls.filterMap (fun l => stepCost (solve (scenarioNet d l)))

def dispatchesSpec (solve : Network → SolveOutcome) (d : Network) (ls : List String) :
    List Frame :=
  ls.filterMap (fun l => stepDisp (solve (scenarioNet d l)))

def unservedSpec (solve : Network → SolveOutcome) (d : Network) (ls : List String) : List ℚ :=
  ls.filterMap (fun l => (stepDisp (solve (scenarioNet d l))).map unservedSum)

def logSpec (solve : Network → SolveOutcome) (d : Network) (ls : List String) : List String :=
  (ls.map (fun l => stepLog l (solve (scenarioNet d l)))).flatten

/-! ### Summary statistics

`np.mean` of an empty sequence is NaN (modelled `none`); `np.max` of an empty
sequence raises `ValueError: zero-size array to reduction operation maximum
which has no identity` (modelled by `Except.error`).  The script's
`round(·, 2)` is display formatting and is not modelled. -/

def npMean (l : List ℚ) : Option ℚ :=
  if l.isEmpty then none else some (l.sum / l.length)

def emptyMaxErr : String :=
  "zero-size array to reduction operation maximum which has no identity"

def npMax (l : List ℚ) : Except String ℚ :=
  match l with
  | [] => .error emptyMaxErr
  | x :: xs => .ok (xs.foldl max x)

/-- The four statistics of the summary block, in print order. -/
def summarizeStats (costs unserved : List ℚ) :
    Option ℚ × Except String ℚ × Option ℚ × Except String ℚ :=
  (npMean costs, npMax costs, npMean unserved, npMax unserved)

/-- One printed line of the summary block (values kept symbolic; `none`
renders as `nan`). -/
inductive StatLine where
  | baseCost (v : ℚ)
  | meanCost (v : Option ℚ)
  | maxCost (v : ℚ)
  | meanUnserved (v : Option ℚ)
  | maxUnserved (v : ℚ)
deriving DecidableEq

/-- The summary print block run in order: lines printed before the first
raising `np.max`, and the exception message if one was raised. -/
def summaryReport (ofp_cost : ℚ) (scopf_costs scopf_unserved : List ℚ) :
    List StatLine × Option String :=
  let out := [StatLine.baseCost ofp_cost, StatLine.meanCost (npMean scopf_costs)]
  match npMax scopf_costs with
  | .error e => (out, some e)
  | .ok mc =>
      let out := out ++ [StatLine.maxCost mc, StatLine.meanUnserved (npMean scopf_unserved)]
      match npMax scopf_unserved with
      | .error e => (out, some e)
      | .ok mu => (out ++ [StatLine.maxUnserved mu], none)

/-! ### Linearized OPF feasibility

The DC-OPF constraint system pypsa hands to GLPK for one of the script's
networks: generator dispatch within [0, p_nom], line flows within ±s_nom and
consistent with bus angles (flow·x = Δθ), and power balance at every bus. -/

def genSumAt (m : Network) (dp : String → ℚ) (b : String) : ℚ :=
  ((m.generators.filter (fun g => g.bus == b)).map (fun g => dp g.name)).sum

def loadSumAt (m : Network) (b : String) : ℚ :=
  ((m.loads.filter (fun l => l.bus == b)).map (fun l => l.p_set)).sum

def flowOutAt (m : Network) (fl : String → ℚ) (b : String) : ℚ :=
  ((m.lines.filter (fun l => l.bus0 == b)).map (fun l => fl l.name)).sum

def flowInAt (m : Network) (fl : String → ℚ) (b : String) : ℚ :=
  ((m.lines.filter (fun l => l.bus1 == b)).map (fun l => fl l.name)).sum

def LPSat (m : Network) (dp fl th : String → ℚ) : Prop :=
  (∀ g ∈ m.generators, 0 ≤ dp g.name ∧ dp g.name ≤ g.p_nom) ∧
  (∀ l ∈ m.lines, |fl l.name| ≤ l.s_nom ∧ fl l.name * l.x = th l.bus0 - th l.bus1) ∧
  (∀ b ∈ m.buses, genSumAt m dp b + flowInAt m fl b = loadSumAt m b + flowOutAt m fl b)

instance decLPSat (m : Network) (dp fl th : String → ℚ) : Decidable (LPSat m dp fl th) := by
  unfold LPSat; exact inferInstance

/-- The scenario LP admits a feasible point. -/
def FeasibleLP (m : Network) : Prop := ∃ dp fl th : String → ℚ, LPSat m dp fl th

/-- Feasibility witness dispatch for every single-line-outage scenario of the
script: serve each load from the shedding generator added at its own bus by
the guard loop, everything else (and every flow and angle) at zero. -/
def dispW : String → ℚ := fun g =>
  if g == "Unserved_Bus 1" then 50
  else if g == "Unserved_Bus 2" then 30
  else if g == "Unserved_Bus 3" then 40
  else if g == "Unserved_Bus 4" then 80
  else 0

/-- The generator table shared by all five scenario networks: the base
generators followed by the guard loop's additions (the checked name
`"Unserved_" ++ bus` — e.g. `"Unserved_Bus 0"` — never equals a base name
`"Unserved_i"`, so one generator is appended for every bus). -/
def scenGens : List Generator :=
  nBase.generators ++
    [ ⟨"Unserved_Bus 0", "Bus 0", 10000, 10000, "unserved"⟩,
      ⟨"Unserved_Bus 1", "Bus 1", 10000, 10000, "unserved"⟩,
      ⟨"Unserved_Bus 2", "Bus 2", 10000, 10000, "unserved"⟩,
      ⟨"Unserved_Bus 3", "Bus 3", 10000, 10000, "unserved"⟩,
      ⟨"Unserved_Bus 4", "Bus 4", 10000, 10000, "unserved"⟩ ]

/-- The spec's formula for a scenario's unserved energy: the sum over *all*
periods (rows) of the dispatch of the Unserved (load-shedding) columns;
stated for comparison with the script's `values[0]` variant, which reads only
the first row. -/
def specUnservedSum (f : Frame) : ℚ :=
  (f.rows.map (fun r =>
    (((f.cols.zip r.2).filter
      (fun p => hasSeq "Unserved".data p.1.data)).map (fun p => p.2)).sum)).sum

/-- Concrete two-line network used by witness runs. -/
def wNet : Network := ⟨[], [], [], [⟨"A", "", "", 0, 0, 100⟩, ⟨"B", "", "", 0, 0, 100⟩]⟩

/-- Witness solver oracle: a scenario with line "A" outaged is proven
infeasible; anything else solves with objective 500 and a one-row dispatch
frame holding one ordinary and one Unserved column. -/
def wSolve : Network → SolveOutcome := fun m =>
  if m.lines.any (fun l => l.name == "A" && decide (l.s_nom = 0)) then
    .solved none ⟨[], []⟩
  else
    .solved (some 500) ⟨["G1", "Unserved_0"], [("t0", [5, 2])]⟩

/-- Witness dispatch frames: two feasible scenarios dispatching "GasPlant" at
120 and 80 in the same period. -/
def gasFrames : List Frame :=
  [⟨["GasPlant"], [("t0", [120])]⟩, ⟨["GasPlant"], [("t0", [80])]⟩]

/-! ### Helper lemmas -/

lemma foldl_max_init_le (xs : List ℚ) : ∀ a : ℚ, a ≤ xs.foldl max a := by
  induction xs with
  | nil => intro a; exact le_refl a
  | cons x xs ih =>
      intro a
      calc a ≤ max a x := le_max_left a x
        _ ≤ xs.foldl max (max a x) := ih (max a x)

lemma mem_le_foldl_max (xs : List ℚ) : ∀ (a v : ℚ), v ∈ xs → v ≤ xs.foldl max a := by
  induction xs with
  | nil => intro a v hv; cases hv
  | cons x xs ih =>
      intro a v hv
      rcases List.mem_cons.1 hv with h | h
      · subst h
        calc v ≤ max a v := le_max_right a v
          _ ≤ xs.foldl max (max a v) := foldl_max_init_le xs (max a v)
      · exact ih (max a x) v h

lemma foldl_max_mem (xs : List ℚ) : ∀ a : ℚ, xs.foldl max a = a ∨ xs.foldl max a ∈ xs := by
  induction xs with
  | nil => intro a; left; rfl
  | cons x xs ih =>
      intro a
      rcases ih (max a x) with h | h
      · rcases max_choice a x with hm | hm
        · left; rw [List.foldl_cons, h, hm]
        · right; rw [List.foldl_cons, h, hm]; exact List.mem_cons_self x xs
      · right; exact List.mem_cons_of_mem x h

lemma qmax_mem (l : List ℚ) (h : l ≠ []) : qmax l ∈ l := by
  cases l with
  | nil => exact absurd rfl h
  | cons x xs =>
      rcases foldl_max_mem xs x with h' | h'
      · rw [qmax, h']; exact List.mem_cons_self x xs
      · rw [qmax]; exact List.mem_cons_of_mem x h'

lemma le_qmax (l : List ℚ) (v : ℚ) (hv : v ∈ l) : v ≤ qmax l := by
  cases l with
  | nil => cases hv
  | cons x xs =>
      rcases List.mem_cons.1 hv with h | h
      · subst h; exact foldl_max_init_le xs v
      · exact mem_le_foldl_max xs x v h

lemma colIdx_lt_length : ∀ (cs : List String) (c : String) (i : ℕ),
    colIdx cs c = some i → i < cs.length := by
  intro cs
  induction cs with
  | nil => intro c i h; cases h
  | cons c' cs ih =>
      intro c i h
      rw [colIdx] at h
      by_cases hc : c' = c
      · rw [if_pos hc] at h
        cases h
        exact Nat.succ_pos _
      · rw [if_neg hc] at h
        rcases Option.map_eq_some'.1 h with ⟨j, hj, rfl⟩
        exact Nat.succ_lt_succ (ih c j hj)

lemma find_map_key {β : Type} (g : String → β) :
    ∀ (ks : List String) (k : String), k ∈ ks →
      (ks.map (fun x => (x, g x))).find? (fun r => r.1 == k) = some (k, g k) := by
  intro ks
  induction ks with
  | nil => intro k h; cases h
  | cons x ks ih =>
      intro k hk
      by_cases hx : x = k
      · subst hx
        simp [List.find?]
      · have hne : ((x, g x).1 == k) = false := by
          simp [hx]
        rw [List.map_cons, List.find?_cons, hne]
        refine ih k ?_
        rcases List.mem_cons.1 hk with h | h
        · exact absurd h.symm hx
        · exact h

lemma getD_map_range (g : ℕ → ℚ) (n i : ℕ) (h : i < n) :
    ((List.range n).map g).getD i 0 = g i := by
  rw [List.getD_eq_getElem?_getD, List.getElem?_map, List.getElem?_range h]
  rfl

lemma colVals_ne_nil (F : Frame) (k : String) (i : ℕ)
    (hk : k ∈ F.rows.map (fun r => r.1)) : colVals F k i ≠ [] := by
  rcases List.mem_map.1 hk with ⟨r, hr, rfl⟩
  have hmem : r ∈ F.rows.filter (fun r' => r'.1 == r.1) :=
    List.mem_filter.2 ⟨hr, by simp⟩
  exact List.ne_nil_of_mem (List.mem_map_of_mem _ hmem)

lemma cell_groupbyMax (F : Frame) (k c : String) (i : ℕ)
    (hi : colIdx F.cols c = some i) (hk : k ∈ F.rows.map (fun r => r.1)) :
    cell (groupbyMax F) k c = qmax (colVals F k i) := by
  have hk' : k ∈ (F.rows.map (fun r => r.1)).dedup := List.mem_dedup.2 hk
  show (((((F.rows.map (fun r => r.1)).dedup).map (fun k' =>
      (k', (List.range F.cols.length).map (fun j => qmax (colVals F k' j))))).find?
        (fun r => r.1 == k)).bind
    (fun r => (colIdx F.cols c).map (fun j => r.2.getD j 0))).getD 0 =
      qmax (colVals F k i)
  rw [find_map_key _ _ _ hk', hi]
  show ((List.range F.cols.length).map (fun j => qmax (colVals F k j))).getD i 0 =
    qmax (colVals F k i)
  exact getD_map_range _ _ _ (colIdx_lt_length _ _ _ hi)


lemma enumStep_some (solve : Network → SolveOutcome) (nn d : Network) (acc : LoopAcc)
    (line : String) :
    enumStep solve ⟨nn, some d⟩ acc line =
      match solve (scenarioNet d line) with
      | .raised msg => .error msg
      | .solved none _ =>
          .ok ({ acc with log := acc.log ++ [infeasMsg line] }, ⟨nn, some d⟩)
      | .solved (some obj) p =>
          .ok ({ acc with
                  scopf_dispatches := acc.scopf_dispatches ++ [p],
                  scopf_costs := acc.scopf_costs ++ [obj],
                  scopf_unserved := acc.scopf_unserved ++ [unservedSum p] },
                ⟨nn, some d⟩) := rfl

lemma enumRun_state_eq (solve : Network → SolveOutcome) :
    ∀ (ls : List String) (st : ProgState) (acc : LoopAcc) (r : LoopAcc × ProgState),
      enumRun solve st ls acc = .ok r → r.2 = st := by
  intro ls
  induction ls with
  | nil =>
      intro st acc r h
      rw [enumRun] at h
      cases h
      rfl
  | cons line ls ih =>
      intro st acc r h
      obtain ⟨nn, dsk⟩ := st
      cases dsk with
      | none => exact absurd h (by rw [enumRun]; exact fun hc => Except.noConfusion hc)
      | some d =>
          rw [enumRun, enumStep_some] at h
          cases hs : solve (scenarioNet d line) with
          | raised msg => rw [hs] at h; exact Except.noConfusion h
          | solved o p =>
              rw [hs] at h
              cases o with
              | none => exact ih ⟨nn, some d⟩ _ r h
              | some v => exact ih ⟨nn, some d⟩ _ r h

lemma enumRun_ok_iff (solve : Network → SolveOutcome) (d : Network) :
    ∀ (ls : List String) (nn : Network) (acc : LoopAcc),
      (isOkE (enumRun solve ⟨nn, some d⟩ ls acc) = true ↔
        ∀ l ∈ ls, isRaisedB (solve (scenarioNet d l)) = false) := by
  intro ls
  induction ls with
  | nil =>
      intro nn acc
      constructor
      · intro _ l hl; cases hl
      · intro _; rfl
  | cons line ls ih =>
      intro nn acc
      have hmem : (∀ l ∈ line :: ls, isRaisedB (solve (scenarioNet d l)) = false) ↔
          (isRaisedB (solve (scenarioNet d line)) = false ∧
            ∀ l ∈ ls, isRaisedB (solve (scenarioNet d l)) = false) := by
        constructor
        · intro h
          exact ⟨h line (List.mem_cons_self line ls),
            fun l hl => h l (List.mem_cons_of_mem line hl)⟩
        · intro h l hl
          rcases List.mem_cons.1 hl with h' | h'
          · subst h'; exact h.1
          · exact h.2 l h'
      rw [enumRun, enumStep_some, hmem]
      cases hs : solve (scenarioNet d line) with
      | raised msg =>
          constructor
          · intro h; cases h
          · intro h; cases h.1
      | solved o p =>
          cases o with
          | none =>
              constructor
              · intro h; exact ⟨rfl, (ih nn _).1 h⟩
              · intro h; exact (ih nn _).2 h.2
          | some v =>
              constructor
              · intro h; exact ⟨rfl, (ih nn _).1 h⟩
              · intro h; exact (ih nn _).2 h.2

lemma enumRun_spec (solve : Network → SolveOutcome) (d : Network) :
    ∀ (ls : List String) (nn : Network) (acc : LoopAcc),
      (∀ l ∈ ls, isRaisedB (solve (scenarioNet d l)) = false) →
      enumRun solve ⟨nn, some d⟩ ls acc = .ok
        ({ scopf_dispatches := acc.scopf_dispatches ++ dispatchesSpec solve d ls,
           scopf_costs := acc.scopf_costs ++ costsSpec solve d ls,
           scopf_unserved := acc.scopf_unserved ++ unservedSpec solve d ls,
           log := acc.log ++ logSpec solve d ls }, ⟨nn, some d⟩) := by
  intro ls
  induction ls with
  | nil =>
      intro nn acc _
      rw [enumRun]
      simp [dispatchesSpec, costsSpec, unservedSpec, logSpec]
  | cons line ls ih =>
      intro nn acc hnr
      have hnr' : ∀ l ∈ ls, isRaisedB (solve (scenarioNet d l)) = false :=
        fun l hl => hnr l (List.mem_cons_of_mem line hl)
      rw [enumRun, enumStep_some]
      cases hs : solve (scenarioNet d line) with
      | raised msg =>
          have := hnr line (List.mem_cons_self line ls)
          rw [hs] at this
          cases this
      | solved o p =>
          cases o with
          | none =>
              show enumRun solve ⟨nn, some d⟩ ls { acc with log := acc.log ++ [infeasMsg line] } = _
              rw [ih nn _ hnr']
              simp only [dispatchesSpec, costsSpec, unservedSpec, logSpec,
                List.filterMap_cons, List.map_cons, List.flatten_cons, hs, stepCost,
                stepDisp, stepLog, Option.map_none', List.append_assoc, List.nil_append,
                List.singleton_append]
          | some v =>
              show enumRun solve ⟨nn, some d⟩ ls
                { acc with
                    scopf_dispatches := acc.scopf_dispatches ++ [p],
                    scopf_costs := acc.scopf_costs ++ [v],
                    scopf_unserved := acc.scopf_unserved ++ [unservedSum p] } = _
              rw [ih nn _ hnr']
              simp only [dispatchesSpec, costsSpec, unservedSpec, logSpec,
                List.filterMap_cons, List.map_cons, List.flatten_cons, hs, stepCost,
                stepDisp, stepLog, Option.map_some', List.append_assoc, List.nil_append,
                List.singleton_append]

lemma flowOutAt_zero (m : Network) (b : String) : flowOutAt m (fun _ => 0) b = 0 := by
  apply List.sum_eq_zero
  intro x hx
  rcases List.mem_map.1 hx with ⟨l, _, rfl⟩
  rfl

lemma flowInAt_zero (m : Network) (b : String) : flowInAt m (fun _ => 0) b = 0 := by
  apply List.sum_eq_zero
  intro x hx
  rcases List.mem_map.1 hx with ⟨l, _, rfl⟩
  rfl

lemma genSum_eq_loadSum_scen (m : Network) (hg : m.generators = scenGens)
    (hl : m.loads = nBase.loads) (b : String) (hb : b ∈ nBase.buses) :
    genSumAt m dispW b = loadSumAt m b := by
  rw [genSumAt, loadSumAt, hg, hl]
  have hb' : b ∈ ["Bus 0", "Bus 1", "Bus 2", "Bus 3", "Bus 4"] := hb
  fin_cases hb'
  · show ([0, 0, 0] : List ℚ).sum = ([] : List ℚ).sum
    norm_num
  · show ([0, 0, 50] : List ℚ).sum = ([50] : List ℚ).sum
    norm_num
  · show ([0, 0, 30] : List ℚ).sum = ([30] : List ℚ).sum
    norm_num
  · show ([0, 0, 40] : List ℚ).sum = ([40] : List ℚ).sum
    norm_num
  · show ([0, 80] : List ℚ).sum = ([80] : List ℚ).sum
    norm_num

lemma lpsat_scen (m : Network) (hg : m.generators = scenGens)
    (hl : m.loads = nBase.loads) (hb : m.buses = nBase.buses)
    (hsn : ∀ l ∈ m.lines, (0 : ℚ) ≤ l.s_nom) :
    LPSat m dispW (fun _ => 0) (fun _ => 0) := by
  refine ⟨?_, ?_, ?_⟩
  · rw [hg]
    decide
  · intro l hl'
    refine ⟨?_, ?_⟩
    · simpa using hsn l hl'
    · simp
  · intro b hbm
    rw [flowOutAt_zero, flowInAt_zero, add_zero, add_zero]
    exact genSum_eq_loadSum_scen m hg hl b (hb ▸ hbm)

lemma feasible_scen (l : String) (hl : l ∈ contingency_lines) :
    FeasibleLP (scenarioNet nBase l) := by
  fin_cases hl
  · exact ⟨dispW, fun _ => 0, fun _ => 0,
      lpsat_scen _ (by decide) (by decide) (by decide) (by decide)⟩
  · exact ⟨dispW, fun _ => 0, fun _ => 0,
      lpsat_scen _ (by decide) (by decide) (by decide) (by decide)⟩
  · exact ⟨dispW, fun _ => 0, fun _ => 0,
      lpsat_scen _ (by decide) (by decide) (by decide) (by decide)⟩
  · exact ⟨dispW, fun _ => 0, fun _ => 0,
      lpsat_scen _ (by decide) (by decide) (by decide) (by decide)⟩
  · exact ⟨dispW, fun _ => 0, fun _ => 0,
      lpsat_scen _ (by decide) (by decide) (by decide) (by decide)⟩

lemma logSpec_nil (solve : Network → SolveOutcome) (d : Network) :
    ∀ ls : List String,
      (∀ l ∈ ls, isNoObjB (solve (scenarioNet d l)) = false) →
      logSpec solve d ls = [] := by
  intro ls
  induction ls with
  | nil => intro _; rfl
  | cons line ls ih =>
      intro h
      have hstep : stepLog line (solve (scenarioNet d line)) = [] := by
        have := h line (List.mem_cons_self line ls)
        cases hs : solve (scenarioNet d line) with
        | raised msg => rfl
        | solved o p =>
            cases o with
            | none => rw [hs] at this; cases this
            | some v => rfl
      rw [logSpec, List.map_cons, List.flatten_cons, hstep, List.nil_append]
      exact ih (fun l hl => h l (List.mem_cons_of_mem line hl))

lemma unservedSum_eq_spec (f : Frame) (h : f.rows.length = 1) :
    unservedSum f = specUnservedSum f := by
  rcases f with ⟨cols, rows⟩
  cases rows with
  | nil => cases h
  | cons r rest =>
      cases rest with
      | nil => simp [unservedSum, specUnservedSum]
      | cons r2 rest2 => simp at h

lemma unservedSpec_eq_map (solve : Network → SolveOutcome) (d : Network)
    (ls : List String) :
    unservedSpec solve d ls = (dispatchesSpec solve d ls).map unservedSum := by
  rw [unservedSpec, dispatchesSpec, List.map_filterMap]

/-! ### Claim theorems -/

/-- C1: for every non-empty sequence of feasible scenario dispatch frames,
the conservative dispatch aggregator returns, for each generating unit
(column `c`) and each period (index label `k`), exactly the maximum dispatch
value observed for that unit/period across all feasible scenarios: the
aggregate value is one of the observed values and bounds them all from
above. -/
theorem scopf_dispatch_observed_max (fs : List Frame) (base : Frame)
    (k c : String) (i : ℕ) (hne : fs ≠ [])
    (hi : colIdx (concatFrames fs).cols c = some i)
    (hk : k ∈ (concatFrames fs).rows.map (fun r => r.1)) :
    cell (scopf_dispatch fs base) k c ∈ colVals (concatFrames fs) k i ∧
      ∀ v ∈ colVals (concatFrames fs) k i, v ≤ cell (scopf_dispatch fs base) k c := by
  have hemp : fs.isEmpty = false := by
    cases fs with
    | nil => exact absurd rfl hne
    | cons a as => rfl
  have hsd : scopf_dispatch fs base = groupbyMax (concatFrames fs) := by
    rw [scopf_dispatch, hemp]
    rfl
  rw [hsd, cell_groupbyMax _ _ _ _ hi hk]
  exact ⟨qmax_mem _ (colVals_ne_nil _ _ _ hk), fun v hv => le_qmax _ v hv⟩

/-- C1 witness: two feasible scenarios dispatch "GasPlant" at 120 and 80 in
the same period; the conservative aggregate for "GasPlant" there is an
observed value, bounds both, and equals 120. -/
theorem scopf_dispatch_observed_max_witness :
    gasFrames ≠ [] ∧
    colIdx (concatFrames gasFrames).cols "GasPlant" = some 0 ∧
    "t0" ∈ (concatFrames gasFrames).rows.map (fun r => r.1) ∧
    (cell (scopf_dispatch gasFrames ⟨[], []⟩) "t0" "GasPlant" ∈
        colVals (concatFrames gasFrames) "t0" 0 ∧
      ∀ v ∈ colVals (concatFrames gasFrames) "t0" 0,
        v ≤ cell (scopf_dispatch gasFrames ⟨[], []⟩) "t0" "GasPlant") ∧
    cell (scopf_dispatch gasFrames ⟨[], []⟩) "t0" "GasPlant" = 120 :=
  ⟨by decide, by decide, by decide,
   scopf_dispatch_observed_max gasFrames ⟨[], []⟩ "t0" "GasPlant" 0
     (by decide) (by decide) (by decide),
   by decide⟩

/-- C2: the loop distinguishes solver-failure kinds: a candidate whose solve
raises aborts the entire enumeration with that error (first conjunct); a
candidate whose solve returns with `objective = None` is logged as infeasible
and the enumeration continues (second conjunct); and the enumeration
completes exactly when no candidate's solve raises, so a raised fault is
never absorbed as one scenario's infeasibility (third conjunct). -/
theorem solver_fault_vs_infeasible (solve : Network → SolveOutcome)
    (nn d : Network) :
    (∀ line ls acc msg, solve (scenarioNet d line) = .raised msg →
        enumRun solve ⟨nn, some d⟩ (line :: ls) acc = .error msg) ∧
    (∀ line ls acc p, solve (scenarioNet d line) = .solved none p →
        enumRun solve ⟨nn, some d⟩ (line :: ls) acc =
          enumRun solve ⟨nn, some d⟩ ls
            { acc with log := acc.log ++ [infeasMsg line] }) ∧
    (∀ ls acc, isOkE (enumRun solve ⟨nn, some d⟩ ls acc) = true ↔
        ∀ l ∈ ls, isRaisedB (solve (scenarioNet d l)) = false) := by
  refine ⟨?_, ?_, ?_⟩
  · intro line ls acc msg hs
    rw [enumRun, enumStep_some, hs]
  · intro line ls acc p hs
    rw [enumRun, enumStep_some, hs]
  · intro ls acc
    exact enumRun_ok_iff solve d ls nn acc

/-- C2 witness: the statement instantiated at a solver oracle that always
raises, over the script's base network. -/
theorem solver_fault_vs_infeasible_witness :
    (∀ line ls acc msg,
        (fun _ : Network => SolveOutcome.raised "glpk process crashed")
            (scenarioNet nBase line) = .raised msg →
        enumRun (fun _ => SolveOutcome.raised "glpk process crashed")
          ⟨nBase, some nBase⟩ (line :: ls) acc = .error msg) ∧
    (∀ line ls acc p,
        (fun _ : Network => SolveOutcome.raised "glpk process crashed")
            (scenarioNet nBase line) = .solved none p →
        enumRun (fun _ => SolveOutcome.raised "glpk process crashed")
          ⟨nBase, some nBase⟩ (line :: ls) acc =
          enumRun (fun _ => SolveOutcome.raised "glpk process crashed")
            ⟨nBase, some nBase⟩ ls
            { acc with log := acc.log ++ [infeasMsg line] }) ∧
    (∀ ls acc,
        isOkE (enumRun (fun _ => SolveOutcome.raised "glpk process crashed")
          ⟨nBase, some nBase⟩ ls acc) = true ↔
        ∀ l ∈ ls,
          isRaisedB ((fun _ : Network => SolveOutcome.raised "glpk process crashed")
            (scenarioNet nBase l)) = false) :=
  solver_fault_vs_infeasible (fun _ => SolveOutcome.raised "glpk process crashed")
    nBase nBase

/-- C3: when no candidate's solve raises, the loop completes and returns
exactly: one printed "Infeasible for outage" line per infeasible candidate
(in candidate order), and the dispatch/cost/unserved lists of exactly the
feasible candidates — every infeasible candidate leaves a visible trace and
is excluded from the collected statistics, while the feasible candidates
still contribute. -/
theorem infeasible_logged_and_excluded (solve : Network → SolveOutcome)
    (nn d : Network) (ls : List String)
    (hnr : ∀ l ∈ ls, isRaisedB (solve (scenarioNet d l)) = false) :
    enumRun solve ⟨nn, some d⟩ ls initAcc = .ok
      ({ scopf_dispatches := dispatchesSpec solve d ls,
         scopf_costs := costsSpec solve d ls,
         scopf_unserved := unservedSpec solve d ls,
         log := logSpec solve d ls }, ⟨nn, some d⟩) := by
  simpa [initAcc] using enumRun_spec solve d ls nn initAcc hnr

/-- C3 witness: over a two-candidate run where outaging "A" is infeasible and
outaging "B" is feasible, the loop completes with the spec lists (the log
names "A"; the statistics lists hold only "B"'s results). -/
theorem infeasible_logged_and_excluded_witness :
    (∀ l ∈ ["A", "B"], isRaisedB (wSolve (scenarioNet wNet l)) = false) ∧
    enumRun wSolve ⟨wNet, some wNet⟩ ["A", "B"] initAcc = .ok
      ({ scopf_dispatches := dispatchesSpec wSolve wNet ["A", "B"],
         scopf_costs := costsSpec wSolve wNet ["A", "B"],
         scopf_unserved := unservedSpec wSolve wNet ["A", "B"],
         log := logSpec wSolve wNet ["A", "B"] }, ⟨wNet, some wNet⟩) :=
  ⟨by decide, infeasible_logged_and_excluded wSolve wNet wNet ["A", "B"] (by decide)⟩

/-- C4 counterexample: the fallback is NOT distinguishable in the output from
a genuinely computed worst-case dispatch: on the concrete frame below, the
aggregator's output for an empty feasible set (the fallback) is identical to
its output for a non-empty feasible set that genuinely computes the same
dispatch, so no consumer of the output can tell which occurred. -/
theorem aggregator_fallback_cx :
    scopf_dispatch [] ⟨["G1"], [("t0", [7])]⟩ =
      scopf_dispatch [⟨["G1"], [("t0", [7])]⟩] ⟨["G1"], [("t0", [7])]⟩ := by decide

/-- C4 amended: with zero feasible entries the aggregator returns the base
(no-outage) dispatch as the conservative plan, but the output is a plain
dispatch frame carrying no fallback marker, so the fallback is not
distinguishable in the output from a computed worst-case dispatch. -/
theorem aggregator_fallback_returns_base (base : Frame) :
    scopf_dispatch [] base = base := rfl

/-- C5: scenario building leaves the base unchanged: every iteration builds
its scenario network from the exported file contents and its own candidate
line only, mutating neither the in-memory base network nor the file, so
after any completed run both equal their values before the run. -/
theorem build_preserves_base (solve : Network → SolveOutcome) (st : ProgState)
    (ls : List String) (acc : LoopAcc) (r : LoopAcc × ProgState)
    (h : enumRun solve st ls acc = .ok r) :
    r.2.n = st.n ∧ r.2.disk = st.disk := by
  rw [enumRun_state_eq solve ls st acc r h]
  exact ⟨rfl, rfl⟩

/-- C5 witness: a concrete completed run over the script's base network
leaves the base network object and the exported file contents unchanged. -/
theorem build_preserves_base_witness :
    (enumRun (fun _ => SolveOutcome.solved none ⟨[], []⟩) ⟨nBase, some nBase⟩
        ["Line_0_1"] initAcc =
      .ok (⟨[], [], [], [infeasMsg "Line_0_1"]⟩, ⟨nBase, some nBase⟩)) ∧
    (((⟨[], [], [], [infeasMsg "Line_0_1"]⟩, ⟨nBase, some nBase⟩) :
          LoopAcc × ProgState).2.n = (⟨nBase, some nBase⟩ : ProgState).n ∧
      ((⟨[], [], [], [infeasMsg "Line_0_1"]⟩, ⟨nBase, some nBase⟩) :
          LoopAcc × ProgState).2.disk = (⟨nBase, some nBase⟩ : ProgState).disk) :=
  ⟨rfl, build_preserves_base (fun _ => SolveOutcome.solved none ⟨[], []⟩)
    ⟨nBase, some nBase⟩ ["Line_0_1"] initAcc _ rfl⟩

/-- C6 counterexample: a perturbation naming a line absent from the base does
NOT fail with an UnknownEntity error: the scenario build completes and
returns a modified network — the pandas `.at` assignment enlarges the line
table, appending a new row named "Line_4_0" with capacity 0. -/
theorem unknown_entity_cx :
    (scenarioNet nBase "Line_4_0").lines.map (fun l => l.name) =
      ["Line_0_1", "Line_1_2", "Line_2_3", "Line_3_0", "Line_1_4", "Line_4_0"] ∧
    ∃ l ∈ (scenarioNet nBase "Line_4_0").lines,
      l.name = "Line_4_0" ∧ l.s_nom = 0 := by decide

/-- C6 amended: a perturbation referencing a line not present in the base
does not fail and is not fatal: the capacity assignment enlarges the line
table with a new row holding the assigned capacity (its other cells unset),
and the build returns this silently modified network. -/
theorem unknown_entity_enlarges (m : Network) (line : String) (v : ℚ)
    (h : (m.lines.map (fun l => l.name)).contains line = false) :
    (setLineSnom m line v).lines = m.lines ++ [⟨line, "", "", 0, 0, v⟩] := by
  unfold setLineSnom
  rw [h]
  rfl

/-- C6 amended witness: assigning capacity 0 to the absent label "Line_9_9"
on the script's base network appends a new zero-capacity line row. -/
theorem unknown_entity_enlarges_witness :
    ((nBase.lines.map (fun l => l.name)).contains "Line_9_9" = false) ∧
    (setLineSnom nBase "Line_9_9" 0).lines =
      nBase.lines ++ [⟨"Line_9_9", "", "", 0, 0, 0⟩] :=
  ⟨by decide, unknown_entity_enlarges nBase "Line_9_9" 0 (by decide)⟩

/-- C7: the four printed summary statistics are mean cost, max cost, mean
unserved and max unserved computed over exactly the feasible candidates'
collected values, and each feasible scenario's recorded unserved value equals
the sum over all periods of the dispatch of the high-marginal-cost
"Unserved" column category (the script reads `values[0]`, which equals that
all-period sum because every dispatch frame carries the single snapshot,
hypothesis `h1`). -/
theorem summary_over_feasible_only (solve : Network → SolveOutcome)
    (nn d : Network) (ls : List String)
    (hnr : ∀ l ∈ ls, isRaisedB (solve (scenarioNet d l)) = false)
    (h1 : ∀ l ∈ ls, ∀ f ∈ (stepDisp (solve (scenarioNet d l))).toList,
      f.rows.length = 1) :
    ∃ acc : LoopAcc,
      enumRun solve ⟨nn, some d⟩ ls initAcc = .ok (acc, ⟨nn, some d⟩) ∧
      acc.scopf_costs = costsSpec solve d ls ∧
      summarizeStats acc.scopf_costs acc.scopf_unserved =
        (npMean (costsSpec solve d ls), npMax (costsSpec solve d ls),
         npMean (unservedSpec solve d ls), npMax (unservedSpec solve d ls)) ∧
      acc.scopf_unserved = acc.scopf_dispatches.map specUnservedSum := by
  refine ⟨⟨dispatchesSpec solve d ls, costsSpec solve d ls,
    unservedSpec solve d ls, logSpec solve d ls⟩, ?_, rfl, rfl, ?_⟩
  · simpa [initAcc] using enumRun_spec solve d ls nn initAcc hnr
  · show unservedSpec solve d ls = (dispatchesSpec solve d ls).map specUnservedSum
    rw [unservedSpec_eq_map]
    apply List.map_congr_left
    intro f hf
    rcases List.mem_filterMap.1 hf with ⟨l, hl, he⟩
    refine unservedSum_eq_spec f (h1 l hl f ?_)
    rw [he]
    exact List.mem_singleton.2 rfl

/-- C7 witness: with "A" infeasible and "B" feasible carrying a one-row
dispatch frame, the summary statistics range over the feasible lists only
and the recorded unserved value agrees with the spec's all-period formula. -/
theorem summary_over_feasible_only_witness :
    (∀ l ∈ ["A", "B"], isRaisedB (wSolve (scenarioNet wNet l)) = false) ∧
    (∀ l ∈ ["A", "B"], ∀ f ∈ (stepDisp (wSolve (scenarioNet wNet l))).toList,
      f.rows.length = 1) ∧
    (∃ acc : LoopAcc,
      enumRun wSolve ⟨wNet, some wNet⟩ ["A", "B"] initAcc = .ok (acc, ⟨wNet, some wNet⟩) ∧
      acc.scopf_costs = costsSpec wSolve wNet ["A", "B"] ∧
      summarizeStats acc.scopf_costs acc.scopf_unserved =
        (npMean (costsSpec wSolve wNet ["A", "B"]), npMax (costsSpec wSolve wNet ["A", "B"]),
         npMean (unservedSpec wSolve wNet ["A", "B"]),
         npMax (unservedSpec wSolve wNet ["A", "B"])) ∧
      acc.scopf_unserved = acc.scopf_dispatches.map specUnservedSum) :=
  ⟨by decide, by decide,
   summary_over_feasible_only wSolve wNet wNet ["A", "B"] (by decide) (by decide)⟩

/-- C8 counterexample: with zero feasible scenarios the summary does NOT
raise or flag an explicit EmptyAggregate condition instead of returning
statistics: it first emits the mean-cost statistic line (printed as NaN) and
then aborts with numpy's generic empty-reduction ValueError. -/
theorem empty_summary_cx :
    (summaryReport 3000 [] []).2 = some emptyMaxErr ∧
    StatLine.meanCost none ∈ (summaryReport 3000 [] []).1 := by decide

/-- C8 amended: if no candidate is feasible, the summary prints the base cost
and a NaN mean contingency cost, then aborts with the ValueError raised by
`np.max` over the empty cost list; no statistic is ever reported as zero and
no unserved-energy statistic is reported at all, but the signal is numpy's
generic empty-reduction error rather than an explicit EmptyAggregate flag. -/
theorem empty_summary_behavior (c : ℚ) :
    summaryReport c [] [] =
      ([StatLine.baseCost c, StatLine.meanCost none], some emptyMaxErr) := rfl

/-- C9: determinism as two-run equality: a completed enumeration leaves the
program state (base network and exported file contents) unchanged, so
re-running the enumeration on the post-run state with the same candidate
list and the same (deterministic) solver oracle returns the identical
result — in particular identical collected statistics. -/
theorem enumeration_rerun_identical (solve : Network → SolveOutcome)
    (st : ProgState) (ls : List String) (acc : LoopAcc)
    (r : LoopAcc × ProgState) (h : enumRun solve st ls acc = .ok r) :
    enumRun solve r.2 ls acc = .ok r := by
  rw [enumRun_state_eq solve ls st acc r h]
  exact h

/-- C9 witness: a concrete completed run, re-run from its post-state,
reproduces the identical result. -/
theorem enumeration_rerun_identical_witness :
    (enumRun (fun _ => SolveOutcome.solved (some 5) ⟨["G1"], [("t0", [3])]⟩)
        ⟨nBase, some nBase⟩ ["Line_1_4"] initAcc =
      .ok (⟨[⟨["G1"], [("t0", [3])]⟩], [5], [0], []⟩, ⟨nBase, some nBase⟩)) ∧
    enumRun (fun _ => SolveOutcome.solved (some 5) ⟨["G1"], [("t0", [3])]⟩)
        ((⟨[⟨["G1"], [("t0", [3])]⟩], [5], [0], []⟩,
            (⟨nBase, some nBase⟩ : ProgState)) : LoopAcc × ProgState).2
        ["Line_1_4"] initAcc =
      .ok (⟨[⟨["G1"], [("t0", [3])]⟩], [5], [0], []⟩, ⟨nBase, some nBase⟩) :=
  ⟨rfl, enumeration_rerun_identical
    (fun _ => SolveOutcome.solved (some 5) ⟨["G1"], [("t0", [3])]⟩)
    ⟨nBase, some nBase⟩ ["Line_1_4"] initAcc _ rfl⟩

/-- C10: in every scenario network built for a candidate outage, the guard's
checked name `"Unserved_" ++ bus` never matches a base generator name (base
shedding generators are "Unserved_0".."Unserved_4" while buses are named
"Bus 0".."Bus 4"), so a second shedding generator with p_nom = 10000 MW and
marginal cost 10000 is added at every bus and every bus hosts two such
generators (first conjunct); consequently every single-line-outage LP admits
a feasible dispatch (second conjunct); and for any solver oracle that does
not report a missing objective on a feasible LP, the script's infeasibility
branch is unreachable — a completed run prints no "Infeasible for outage"
line (third conjunct). -/
theorem unserved_guard_unreachable_infeasible (solve : Network → SolveOutcome)
    (hsolver : ∀ l ∈ contingency_lines, FeasibleLP (scenarioNet nBase l) →
      isNoObjB (solve (scenarioNet nBase l)) = false) :
    (∀ l ∈ contingency_lines, ∀ b ∈ (scenarioNet nBase l).buses,
        ∃ g1 ∈ (scenarioNet nBase l).generators,
          ∃ g2 ∈ (scenarioNet nBase l).generators,
            g1.name ≠ g2.name ∧ g1.bus = b ∧ g2.bus = b ∧
            g1.p_nom = 10000 ∧ g1.marginal_cost = 10000 ∧
            g2.p_nom = 10000 ∧ g2.marginal_cost = 10000 ∧
            g2.name = "Unserved_" ++ b) ∧
    (∀ l ∈ contingency_lines, FeasibleLP (scenarioNet nBase l)) ∧
    (∀ acc st', enumRun solve ⟨nBase, some nBase⟩ contingency_lines initAcc =
        .ok (acc, st') → acc.log = []) := by
  refine ⟨by decide, feasible_scen, ?_⟩
  intro acc st' h
  have hok : isOkE (enumRun solve ⟨nBase, some nBase⟩ contingency_lines initAcc) = true := by
    rw [h]
    rfl
  have hnr := (enumRun_ok_iff solve nBase contingency_lines nBase initAcc).1 hok
  have hspec := enumRun_spec solve nBase contingency_lines nBase initAcc hnr
  rw [h] at hspec
  have hlog : ∀ l ∈ contingency_lines, isNoObjB (solve (scenarioNet nBase l)) = false :=
    fun l hl => hsolver l hl (feasible_scen l hl)
  have hnil := logSpec_nil solve nBase contingency_lines hlog
  injection hspec with h1
  have hacc : acc =
      { scopf_dispatches :=
          initAcc.scopf_dispatches ++ dispatchesSpec solve nBase contingency_lines,
        scopf_costs :=
          initAcc.scopf_costs ++ costsSpec solve nBase contingency_lines,
        scopf_unserved :=
          initAcc.scopf_unserved ++ unservedSpec solve nBase contingency_lines,
        log := initAcc.log ++ logSpec solve nBase contingency_lines } :=
    congrArg Prod.fst h1
  rw [hacc]
  show [] ++ logSpec solve nBase contingency_lines = []
  rw [hnil]
  rfl

/-- C10 witness: instantiated at a solver oracle that always returns an
objective, discharging the solver-completeness hypothesis. -/
theorem unserved_guard_unreachable_infeasible_witness :
    (∀ l ∈ contingency_lines, ∀ b ∈ (scenarioNet nBase l).buses,
        ∃ g1 ∈ (scenarioNet nBase l).generators,
          ∃ g2 ∈ (scenarioNet nBase l).generators,
            g1.name ≠ g2.name ∧ g1.bus = b ∧ g2.bus = b ∧
            g1.p_nom = 10000 ∧ g1.marginal_cost = 10000 ∧
            g2.p_nom = 10000 ∧ g2.marginal_cost = 10000 ∧
            g2.name = "Unserved_" ++ b) ∧
    (∀ l ∈ contingency_lines, FeasibleLP (scenarioNet nBase l)) ∧
    (∀ acc st', enumRun (fun _ => SolveOutcome.solved (some 0) ⟨[], []⟩)
        ⟨nBase, some nBase⟩ contingency_lines initAcc =
        .ok (acc, st') → acc.log = []) :=
  unserved_guard_unreachable_infeasible
    (fun _ => SolveOutcome.solved (some 0) ⟨[], []⟩) (fun _ _ _ => rfl)
